import Mathlib

/-!
Shallow embedding of the drizzle-llm static-analysis core (schema analyzer,
query collector, identity hashing, change categorizer, cache store), with
theorems checking the natural-language specification against the code.

Conventions of the embedding:
* JavaScript values that flow through `JSON.stringify` are modelled by
  `JSValue`; `jsonStringify` reproduces `JSON.stringify` on that fragment
  (object entries whose value is `undefined` are omitted, array holes become
  `null`, strings are escaped).
* Cryptographic digests (`createHash("md5")`, `createHash("sha256")`) are
  modelled by an explicit `digest : String → String` parameter: every claim
  proved here depends only on the digest being a function of its input, never
  on properties of MD5/SHA-256 themselves.
* Machine numbers appearing in the claims (line/column positions, cache
  timestamps in milliseconds) are modelled as `Nat`; numeric literal values
  carried through parameter maps are modelled as `Int`.
-/

namespace DrizzleLLM

/-- JavaScript runtime values, as far as the analyzed code inspects them. -/
inductive JSValue : Type where
  | undef : JSValue
  | null : JSValue
  | bool : Bool → JSValue
  | num : Int → JSValue
  | str : String → JSValue
  | obj : List (String × JSValue) → JSValue
  | arr : List JSValue → JSValue
  deriving Repr

/-- One character of a JSON string body, escaped as `JSON.stringify` does. -/
def jsonEscapeChar (c : Char) : String :=
  if c = '"' then "\\\""
  else if c = '\\' then "\\\\"
  else if c = '\n' then "\\n"
  else if c = '\r' then "\\r"
  else if c = '\t' then "\\t"
  else if c.toNat = 8 then "\\b"
  else if c.toNat = 12 then "\\f"
  else if c.toNat < 32 then "\\u00" ++ (Nat.toDigits 16 c.toNat).asString
  else String.singleton c

/-- JSON escaping of a full string body. -/
def jsonEscape (s : String) : String :=
  s.foldl (fun acc c => acc ++ jsonEscapeChar c) ""

/-- A JSON string literal: quotes around the escaped body. -/
def jsonQuote (s : String) : String :=
  "\"" ++ jsonEscape s ++ "\""

mutual

/-- `JSON.stringify` on a single value; `none` models the JavaScript result
`undefined` (obtained for `undefined` itself). -/
def jsonStringifyVal : JSValue → Option String
  | .undef => none
  | .null => some "null"
  | .bool b => some (cond b "true" "false")
  | .num n => some (toString n)
  | .str s => some (jsonQuote s)
  | .obj fields => some ("\x7b" ++ String.intercalate "," (jsonStringifyFields fields) ++ "\x7d")
  | .arr elems => some ("[" ++ String.intercalate "," (jsonStringifyElems elems) ++ "]")

/-- Serialized object entries; entries whose value serializes to `undefined`
are omitted, exactly as `JSON.stringify` omits `undefined`-valued keys. -/
def jsonStringifyFields : List (String × JSValue) → List String
  | [] => []
  | (k, v) :: rest =>
    match jsonStringifyVal v with
    | none => jsonStringifyFields rest
    | some vs => (jsonQuote k ++ ":" ++ vs) :: jsonStringifyFields rest

/-- Serialized array elements; `undefined` elements are printed as `null`. -/
def jsonStringifyElems : List JSValue → List String
  | [] => []
  | v :: rest => ((jsonStringifyVal v).getD "null") :: jsonStringifyElems rest

end

/-- `JSON.stringify` applied to a value known to be an object literal (every
use in the analyzed code stringifies an object literal, which never yields
`undefined`). -/
def jsonStringify (v : JSValue) : String :=
  (jsonStringifyVal v).getD "undefined"

/-- Source location of a query site: 1-based line/column, as produced by
`getSourceLocation` / `getTemplateSourceLocation` in `src/core/ast-parser.ts`. -/
structure Location : Type where
  file : String
  line : Nat
  column : Nat
  deriving Repr, DecidableEq

/-- The JSON object serialized by `generateQueryId` in `src/utils/hash.ts`:
`JSON.stringify({ intent, params, location })`, where absent optional
arguments are `undefined` and hence omitted from the serialization. -/
def queryIdContent (intent : String) (params : Option (List (String × JSValue)))
    (location : Option Location) : String :=
  jsonStringify (.obj
    [("intent", .str intent),
     ("params", match params with | none => .undef | some ps => .obj ps),
     ("location", match location with
       | none => .undef
       | some l => .obj
           [("file", .str l.file), ("line", .num l.line), ("column", .num l.column)])])

/-- `generateQueryId` from `src/utils/hash.ts`:
`createHash('md5').update(JSON.stringify({intent, params, location})).digest('hex')`.
The MD5 digest is the explicit `digest` parameter. -/
def generateQueryId (digest : String → String) (intent : String)
    (params : Option (List (String × JSValue))) (location : Option Location) : String :=
  digest (queryIdContent intent params location)

/-- `generateRuntimeQueryId` from `src/utils/hash.ts`: the same serialization
with `params` and `location` written explicitly as `undefined`. -/
def generateRuntimeQueryId (digest : String → String) (intentPattern : String) : String :=
  digest (jsonStringify (.obj
    [("intent", .str intentPattern), ("params", .undef), ("location", .undef)]))

/-- A query collected from source analysis (`CollectedQuery` in
`src/types.ts`, restricted to the fields the categorizer and hasher read). -/
structure CollectedQuery : Type where
  id : String
  intent : String
  params : Option (List (String × JSValue))
  returnType : Option String
  location : Location
  deriving Repr

/-- A previously generated query (`GeneratedQuery` in `src/types.ts`,
restricted to the fields the categorizer reads). `intent` is typed `string`
in TypeScript, but the categorizer guards it with a truthiness check because
values loaded from prior artifacts may lack it; `Option String` models that
runtime possibility, with `none` for an absent (`undefined`) intent. -/
structure GeneratedQuery : Type where
  id : String
  intent : Option String
  sql : String
  parameters : List String
  returnType : Option String
  hash : String
  deriving Repr

/-- The serialized content hashed by `generateQueryHash` in `src/plugin.ts`:
`JSON.stringify({intent: query.intent.trim(), params: query.params || {},
returnType: query.returnType})`. An absent `returnType` is `undefined` and is
omitted by the serialization; absent `params` fall back to `{}`. -/
def queryHashContent (q : CollectedQuery) : String :=
  jsonStringify (.obj
    [("intent", .str q.intent.trim),
     ("params", .obj (q.params.getD [])),
     ("returnType", match q.returnType with | none => .undef | some t => .str t)])

/-- `generateQueryHash` from `src/plugin.ts` (MD5 over the content above). -/
def generateQueryHash (digest : String → String) (q : CollectedQuery) : String :=
  digest (queryHashContent q)

/-- The truthiness guard `existingQuery.intent && existingQuery.intent !== ''`
from `categorizeQueries`: true exactly when an intent is recorded and
non-empty (both `undefined` and `""` are falsy in JavaScript). -/
def intentRecorded : Option String → Bool
  | none => false
  | some s => s ≠ ""

/-- Result record of `categorizeQueries` in `src/plugin.ts`. -/
structure Categorized : Type where
  validQueries : List CollectedQuery
  invalidQueries : List CollectedQuery
  changedQueries : List CollectedQuery
  deriving Repr

/-- `categorizeQueries` from `src/plugin.ts`. `existing` models the
`Record<string, GeneratedQuery>` of previously generated queries as a lookup
function (`existingQueries[query.id]`, `undefined` when missing). The loop
pushes each current query onto exactly one of the three arrays; the
recursion below preserves that per-element order. -/
def categorizeQueries (digest : String → String)
    (existing : String → Option GeneratedQuery) :
    List CollectedQuery → Categorized
  | [] => ⟨[], [], []⟩
  | q :: rest =>
    let r := categorizeQueries digest existing rest
    match existing q.id with
    | none => ⟨r.validQueries, q :: r.invalidQueries, r.changedQueries⟩
    | some ex =>
      if intentRecorded ex.intent then
        if q.intent.trim = (ex.intent.getD "").trim then
          ⟨q :: r.validQueries, r.invalidQueries, r.changedQueries⟩
        else
          ⟨r.validQueries, r.invalidQueries, q :: r.changedQueries⟩
      else
        if generateQueryHash digest q = ex.hash then
          ⟨q :: r.validQueries, r.invalidQueries, r.changedQueries⟩
        else
          ⟨r.validQueries, r.invalidQueries, q :: r.changedQueries⟩

/-- Claim-side predicate: the query is new — no existing entry under its id. -/
def isNewQuery (existing : String → Option GeneratedQuery) (q : CollectedQuery) : Bool :=
  (existing q.id).isNone

/-- Claim-side predicate: the query is valid (unchanged) — an entry exists
and either its recorded non-empty intent matches the current intent after
trimming, or no intent is recorded and the secondary content hash over
`(intent.trim, params or empty, returnType)` matches the stored hash. -/
def isValidQuery (digest : String → String)
    (existing : String → Option GeneratedQuery) (q : CollectedQuery) : Bool :=
  match existing q.id with
  | none => false
  | some ex =>
    if intentRecorded ex.intent then
      q.intent.trim = (ex.intent.getD "").trim
    else
      generateQueryHash digest q = ex.hash

/-- Claim-side predicate: the query changed — an entry exists but neither
equality check of `isValidQuery` holds. -/
def isChangedQuery (digest : String → String)
    (existing : String → Option GeneratedQuery) (q : CollectedQuery) : Bool :=
  match existing q.id with
  | none => false
  | some ex =>
    if intentRecorded ex.intent then
      q.intent.trim ≠ (ex.intent.getD "").trim
    else
      generateQueryHash digest q ≠ ex.hash

/-- An on-disk cache entry (`CacheEntry` in `src/types.ts`): the cache key,
the cached query, and the write timestamp in milliseconds. -/
structure CacheEntry : Type where
  hash : String
  query : GeneratedQuery
  timestamp : Nat
  deriving Repr

/-- State of the file-based `QueryCache` of `src/utils/cache.ts`: the enabled
flag and the cache directory's files, one per cache key (`<key>.json`).
Writes replace a file whole, so the newest entry for a key shadows older
contents; `lookupFile` returns the file's current content. -/
structure CacheState : Type where
  enabled : Bool
  files : List (String × CacheEntry)
  deriving Repr

/-- Read the file named by a cache key, `none` when it does not exist
(`existsSync` false). -/
def lookupFile (files : List (String × CacheEntry)) (key : String) : Option CacheEntry :=
  (files.find? (fun kv => kv.1 = key)).map (fun kv => kv.2)

/-- The fixed 24-hour expiration threshold of `QueryCache.isExpired`, in
milliseconds: `24 * 60 * 60 * 1000`. -/
def cacheMaxAge : Nat := 24 * 60 * 60 * 1000

/-- `QueryCache.isExpired`: `Date.now() - cacheEntry.timestamp > maxAge`.
`now` is the explicit current time; truncated `Nat` subtraction agrees with
the JavaScript comparison (a negative difference is never `> maxAge`). -/
def isExpired (now : Nat) (entry : CacheEntry) : Bool :=
  now - entry.timestamp > cacheMaxAge

/-- `QueryCache.generateCacheKey`: SHA-256 (the `digest` parameter) over
`JSON.stringify({queryId, intent: intent.trim(), params: params || {}})`. -/
def generateCacheKey (digest : String → String) (queryId intent : String)
    (params : Option (List (String × JSValue))) : String :=
  digest (jsonStringify (.obj
    [("queryId", .str queryId),
     ("intent", .str intent.trim),
     ("params", .obj (params.getD []))]))

/-- `QueryCache.set`: a no-op when caching is disabled; otherwise writes the
entry file `{hash: cacheKey, query, timestamp: now}` under the cache key,
replacing any previous file of that name. -/
def cacheSet (digest : String → String) (st : CacheState) (now : Nat)
    (queryId intent : String) (query : GeneratedQuery)
    (params : Option (List (String × JSValue))) : CacheState :=
  if st.enabled then
    let key := generateCacheKey digest queryId intent params
    { st with files := (key, ⟨key, query, now⟩) :: st.files }
  else
    st

/-- `QueryCache.get`: `null` when caching is disabled, the entry file is
missing, or the entry is expired; otherwise the cached query. Reading never
modifies the state (expired entries are not deleted). -/
def cacheGet (digest : String → String) (st : CacheState) (now : Nat)
    (queryId intent : String)
    (params : Option (List (String × JSValue))) : Option GeneratedQuery :=
  if st.enabled then
    match lookupFile st.files (generateCacheKey digest queryId intent params) with
    | none => none
    | some entry => if isExpired now entry then none else some entry.query
  else
    none

/-- `QueryCache.has`: like `get` but only reports whether a valid
(non-expired) entry exists. -/
def cacheHas (digest : String → String) (st : CacheState) (now : Nat)
    (queryId intent : String)
    (params : Option (List (String × JSValue))) : Bool :=
  if st.enabled then
    match lookupFile st.files (generateCacheKey digest queryId intent params) with
    | none => false
    | some entry => !isExpired now entry
  else
    false

/-- TypeScript expression nodes, as far as the schema analyzer inspects
them: identifiers, literals, property accesses, calls, object/array
literals, arrow functions with expression bodies, and an opaque constructor
carrying source text for everything else. -/
inductive Expr : Type where
  | ident (name : String)
  | strLit (value : String)
  | numLit (value : Int)
  | trueKw
  | falseKw
  | nullLit
  | propAccess (object : Expr) (name : String)
  | call (callee : Expr) (args : List Expr)
  | objLit (props : List (String × Expr))
  | arrLit (elems : List Expr)
  | arrow (body : Expr)
  | otherExpr (text : String)
  deriving Repr

/-- `node.getKind()` for the kinds the analyzer compares numerically. In the
TypeScript version the repository builds against, `TrueKeyword` is 112 and
`FalseKeyword` is 97 (the analyzer's comparisons against the legacy numbers
109/94 therefore never match; the generated artifacts in the repository
confirm this numbering for template tokens). Kinds the analyzer never
compares numerically are mapped to 0. -/
def getKind : Expr → Nat
  | .trueKw => 112
  | .falseKw => 97
  | _ => 0

mutual

/-- `node.getText()`: the source text of a node. Exact surface formatting is
not recoverable from AST shape, so this is a canonical rendering; the
analyzer only stores these strings opaquely (parameter values, reference
table names, literal fallbacks) and never re-parses them. -/
def exprText : Expr → String
  | .ident n => n
  | .strLit v => "'" ++ v ++ "'"
  | .numLit n => toString n
  | .trueKw => "true"
  | .falseKw => "false"
  | .nullLit => "null"
  | .propAccess o n => exprText o ++ "." ++ n
  | .call c args => exprText c ++ "(" ++ String.intercalate ", " (exprTextList args) ++ ")"
  | .objLit props => "\x7b " ++ String.intercalate ", " (exprTextFields props) ++ " \x7d"
  | .arrLit elems => "[" ++ String.intercalate ", " (exprTextList elems) ++ "]"
  | .arrow body => "() => " ++ exprText body
  | .otherExpr t => t

/-- Source texts of a list of nodes. -/
def exprTextList : List Expr → List String
  | [] => []
  | e :: rest => exprText e :: exprTextList rest

/-- Source texts of object-literal properties. -/
def exprTextFields : List (String × Expr) → List String
  | [] => []
  | (k, v) :: rest => (k ++ ": " ++ exprText v) :: exprTextFields rest

end

/-- The root type call recovered by `findRootTypeCall`: the innermost
identifier call of a column's method chain. -/
structure RootCall : Type where
  typeName : String
  args : List Expr
  deriving Repr

/-- One chained modifier call recovered by `getAllChainedCalls`. -/
structure ChainCall : Type where
  methodName : String
  args : List Expr
  deriving Repr

/-- `SchemaAnalyzer.findRootTypeCall`: walk the call chain inward. A call
whose callee is an identifier is the root (with its arguments); a call whose
callee is a property access continues at the access's object when that is a
call, is the root with empty arguments when that is an identifier, and fails
otherwise; anything else fails. -/
def findRootTypeCall : Expr → Option RootCall
  | .call callee args =>
    match callee with
    | .ident n => some ⟨n, args⟩
    | .propAccess obj _ =>
      match obj with
      | .call c cargs => findRootTypeCall (.call c cargs)
      | .ident n => some ⟨n, []⟩
      | _ => none
    | _ => none
  | _ => none

/-- `SchemaAnalyzer.getAllChainedCalls`: collect every call in the chain
whose callee is a property access, unshifting onto the front while walking
from the outermost call inward — the resulting list is in source chain
order, innermost first, outermost last. The root identifier call is not part
of the list. -/
def getAllChainedCalls : Expr → List ChainCall
  | .call (.propAccess obj name) args => getAllChainedCalls obj ++ [⟨name, args⟩]
  | _ => []

/-- `SchemaAnalyzer.mapDrizzleType`: the fixed type-tag table, with unknown
tags passing through unchanged (`typeMap[drizzleType] || drizzleType`). -/
def mapDrizzleType (t : String) : String :=
  if t = "integer" then "integer"
  else if t = "int" then "integer"
  else if t = "serial" then "serial"
  else if t = "bigint" then "bigint"
  else if t = "bigserial" then "bigserial"
  else if t = "boolean" then "boolean"
  else if t = "text" then "text"
  else if t = "varchar" then "varchar"
  else if t = "char" then "char"
  else if t = "uuid" then "uuid"
  else if t = "timestamp" then "timestamp"
  else if t = "date" then "date"
  else if t = "time" then "time"
  else if t = "json" then "json"
  else if t = "jsonb" then "jsonb"
  else if t = "real" then "real"
  else if t = "double" then "double"
  else if t = "decimal" then "decimal"
  else if t = "numeric" then "numeric"
  else t

/-- `SchemaAnalyzer.extractLiteralValue`: string and numeric literals by
value, boolean keywords via the (stale, never-matching) kind comparison
against 109/94, `null` by value, and source text for everything else. -/
def extractLiteralValue (e : Expr) : JSValue :=
  match e with
  | .strLit v => .str v
  | .numLit n => .num n
  | _ =>
    if getKind e = 109 ∨ getKind e = 94 then .bool (exprText e = "true")
    else
      match e with
      | .nullLit => .null
      | _ => .str (exprText e)

/-- A resolved foreign-key reference (`{ table, column }`). -/
structure ColumnRef : Type where
  table : String
  column : String
  deriving Repr, DecidableEq

/-- `ColumnInfo` from `src/types.ts`, as populated by the schema analyzer.
`dbName` is set by `extractColumns` after `parseColumnDefinition` returns. -/
structure ColumnInfo : Type where
  name : String
  dbName : Option String
  type : String
  nullable : Bool
  defaultValue : Option JSValue
  enumValues : Option (List String)
  constraints : Option (List String)
  references : Option ColumnRef
  deriving Repr

/-- Enum-domain extraction inside `parseColumnDefinition`: from the root
call's second argument, when it is an object literal carrying an `enum`
array property, take the string-literal elements; `.filter(Boolean)` also
drops empty strings. Object-literal properties are modelled as assignments
(the analyzer's `isPropertyAssignment` guard). -/
def enumValuesOf (root : RootCall) : Option (List String) :=
  match root.args.get? 1 with
  | some (.objLit props) =>
    match props.find? (fun kv => kv.1 = "enum") with
    | some (_, .arrLit elems) =>
      some ((elems.filterMap (fun el =>
        match el with | .strLit v => some v | _ => none)).filter (fun v => v ≠ ""))
    | _ => none
  | _ => none

/-- Mutable locals of `parseColumnDefinition`'s chain loop. -/
structure ColAccum : Type where
  nullable : Bool
  defaultValue : Option JSValue
  constraints : List String
  references : Option ColumnRef
  deriving Repr

/-- Whether a chained call is one of the three default-setting modifiers. -/
def isDefaultSetting (c : ChainCall) : Bool :=
  c.methodName = "default" ∨ c.methodName = "defaultRandom" ∨ c.methodName = "defaultNow"

/-- The default value a default-setting call contributes: the literal value
of its first argument when present, else the string `"<method>()"`. -/
def defaultContribution (c : ChainCall) : JSValue :=
  match c.args with
  | [] => .str (c.methodName ++ "()")
  | a :: _ => extractLiteralValue a

/-- One iteration of `parseColumnDefinition`'s loop over the chained calls:
`notNull` clears nullability; the default-setting modifiers overwrite
`defaultValue`; `unique` / `primaryKey` append a constraint; `references`
with an arrow whose body is a property access overwrites the reference
(anything more complex leaves it untouched); other methods are ignored. -/
def applyChainCall (acc : ColAccum) (c : ChainCall) : ColAccum :=
  if c.methodName = "notNull" then { acc with nullable := false }
  else if isDefaultSetting c then { acc with defaultValue := some (defaultContribution c) }
  else if c.methodName = "unique" then { acc with constraints := acc.constraints ++ ["UNIQUE"] }
  else if c.methodName = "primaryKey" then
    { acc with constraints := acc.constraints ++ ["PRIMARY KEY"] }
  else if c.methodName = "references" then
    match c.args with
    | (.arrow (.propAccess obj colName)) :: _ =>
      { acc with references := some ⟨exprText obj, colName⟩ }
    | _ => acc
  else acc

/-- `SchemaAnalyzer.parseColumnDefinition`: root-call lookup for the type
tag and enum domain, then the loop over all chained calls. The TypeScript
signature allows `null` but every path returns an object, so the embedding
is total. -/
def parseColumnDefinition (name : String) (callExpr : Expr) : ColumnInfo :=
  let root := findRootTypeCall callExpr
  let acc := (getAllChainedCalls callExpr).foldl applyChainCall ⟨true, none, [], none⟩
  { name := name
    dbName := none
    type := match root with | some r => mapDrizzleType r.typeName | none => "unknown"
    nullable := acc.nullable
    defaultValue := acc.defaultValue
    enumValues := match root with | some r => enumValuesOf r | none => none
    constraints := if acc.constraints = [] then none else some acc.constraints
    references := acc.references }

/-- `SchemaAnalyzer.extractDbColumnName`: the literal value of the root type
call's first argument when that argument is a string literal, else `null`. -/
def extractDbColumnName (callExpr : Expr) : Option String :=
  match findRootTypeCall callExpr with
  | none => none
  | some root =>
    match root.args with
    | [] => none
    | a :: _ => match a with | .strLit v => some v | _ => none

/-- JavaScript `x || d` for `x : string | null`: the fallback is taken when
`x` is `null` — or the empty string, which is falsy. -/
def jsStringOr (x : Option String) (d : String) : String :=
  match x with
  | some v => if v = "" then d else v
  | none => d

/-- One property of the table's column object literal: a property
assignment with name and initializer, or any other property kind (spread,
shorthand, accessor), which `extractColumns` skips. -/
inductive SchemaProp : Type where
  | propAssign (name : String) (init : Expr)
  | otherProp
  deriving Repr

/-- The column `extractColumns` produces for one object-literal property:
only property assignments whose initializer is a call expression become
columns; `dbName` is the extracted physical name with the JavaScript `||`
fallback to the property name. -/
def extractColumnEntry (p : SchemaProp) : Option ColumnInfo :=
  match p with
  | .propAssign name init =>
    match init with
    | .call _ _ =>
      some { parseColumnDefinition name init with
             dbName := some (jsStringOr (extractDbColumnName init) name) }
    | _ => none
  | .otherProp => none

/-- `SchemaAnalyzer.extractColumns`: fold `extractColumnEntry` over the
object literal's properties in order, keeping the recognized ones. -/
def extractColumns (props : List SchemaProp) : List ColumnInfo :=
  props.filterMap extractColumnEntry

/-- Claim-side recognition predicate: a property is a column candidate
exactly when it is a property assignment whose initializer is a call
expression (a recognizable call chain). -/
def isColumnProp : SchemaProp → Bool
  | .propAssign _ (.call _ _) => true
  | _ => false

/-- One template span of a tagged template: the interpolated expression's
source text, the following literal token's source text (with its `}` / `${`
or `` ` `` delimiters still attached, as `getText()` returns it), and the
literal token's `SyntaxKind` number. In the TypeScript version the build
runs (confirmed by the repository's generated artifacts), `TemplateMiddle`
is 17 and `TemplateTail` is 18. -/
structure TemplateSpan : Type where
  exprSrc : String
  literalText : String
  literalKind : Nat
  deriving Repr

/-- The template of a tagged template expression: a no-substitution literal
(its cooked value), or head text (raw, with `` ` `` and `$\x7b`) plus
spans. -/
inductive TemplateNode : Type where
  | noSub (literalValue : String)
  | templateExpr (headText : String) (spans : List TemplateSpan)
  deriving Repr

/-- JavaScript `s.startsWith(pre)`, computed over the character list. For
the code-point range appearing here (BMP), character indexing agrees with
JavaScript's UTF-16 indexing. -/
def strStarts (s pre : String) : Bool :=
  pre.toList.isPrefixOf s.toList

/-- JavaScript `s.endsWith(suf)`, computed over the character list. -/
def strEnds (s suf : String) : Bool :=
  suf.toList.reverse.isPrefixOf s.toList.reverse

/-- JavaScript `s.slice(n)`: drop the first `n` characters. -/
def strDrop (s : String) (n : Nat) : String :=
  ⟨s.toList.drop n⟩

/-- JavaScript `s.slice(0, -n)`: drop the last `n` characters. -/
def strDropEnd (s : String) (n : Nat) : String :=
  ⟨s.toList.take (s.toList.length - n)⟩

/-- The span-literal stripping of `extractTemplateQueryInfo`: the branch for
kind 218/18 removes a leading `\x7d` and a trailing `\x7b`; the branch for
kind 219/19 removes a leading `\x7d` and a trailing backtick; afterwards the
generic fallback removes a leading `\x7d` and a trailing backtick once
more. No branch ever removes a trailing `$\x7b`. -/
def stripSpanLiteral (kind : Nat) (text : String) : String :=
  let t1 :=
    if kind = 218 ∨ kind = 18 then
      let a := if strStarts text "\x7d" then strDrop text 1 else text
      if strEnds a "\x7b" then strDropEnd a 1 else a
    else if kind = 219 ∨ kind = 19 then
      let a := if strStarts text "\x7d" then strDrop text 1 else text
      if strEnds a "`" then strDropEnd a 1 else a
    else text
  let t2 := if strStarts t1 "\x7d" then strDrop t1 1 else t1
  if strEnds t2 "`" then strDropEnd t2 1 else t2

/-- Head-text stripping of `extractTemplateQueryInfo`: remove the leading
backtick and a trailing `$\x7b`. -/
def stripTemplateHead (text : String) : String :=
  let a := if strStarts text "`" then strDrop text 1 else text
  if strEnds a "$\x7b" then strDropEnd a 2 else a

/-- One iteration of the span loop: append the placeholder `$\x7bi\x7d` and
the stripped literal to the intent, and record `param(i)` as the span
expression's source text. -/
def templateSpanStep (st : Nat × String × List (String × JSValue)) (span : TemplateSpan) :
    Nat × String × List (String × JSValue) :=
  (st.1 + 1,
   st.2.1 ++ "$\x7b" ++ toString st.1 ++ "\x7d"
     ++ stripSpanLiteral span.literalKind span.literalText,
   st.2.2 ++ [("param" ++ toString st.1, JSValue.str span.exprSrc)])

/-- The intent string and parameter map `extractTemplateQueryInfo` derives
from a template: the cooked value for a no-substitution literal; otherwise
the stripped head followed by placeholder + stripped literal per span. -/
def extractTemplateIntentParams : TemplateNode → String × List (String × JSValue)
  | .noSub v => (v, [])
  | .templateExpr headText spans =>
    let st := spans.foldl templateSpanStep (0, stripTemplateHead headText, [])
    (st.2.1, st.2.2)

/-- One node on the upward path from a query node, as far as return-type
inference inspects it: a variable declaration (with its optional type
annotation's text), one of the four function-like kinds (function
declaration, arrow function, method declaration, function expression — all
treated identically, with the optional return-type annotation's text), a
call expression (with its generic type arguments' texts), or anything
else. -/
inductive AncestorNode : Type where
  | varDecl (typeAnn : Option String)
  | funcLike (retAnn : Option String)
  | callNode (typeArgs : List String)
  | otherNode
  deriving Repr, DecidableEq

/-- JavaScript line terminators, which `.` does not match in the
`/^Promise<(.+)>$/` regular expression. -/
def isLineTerm (c : Char) : Bool :=
  c = '\n' ∨ c = '\r' ∨ c.toNat = 0x2028 ∨ c.toNat = 0x2029

/-- The `Promise<T> ↦ T` unwrapping of `getFunctionReturnType`: the regular
expression `/^Promise<(.+)>$/` matches exactly when the text is
`Promise<` ++ inner ++ `>` with non-empty inner free of line terminators;
then the inner text is returned, else the text unchanged. Only a single
level is unwrapped. -/
def unwrapPromise (s : String) : String :=
  let inner := strDropEnd (strDrop s 8) 1
  if strStarts s "Promise<" && strEnds s ">" && decide (9 < s.toList.length)
      && !(inner.toList.any isLineTerm) then
    inner
  else s

/-- `QueryParser.getFunctionReturnType`: walk up from the parent; at the
first function-like ancestor, return its return-type annotation with one
level of `Promise` unwrapped, or nothing if it has no annotation (the walk
breaks there either way). -/
def getFunctionReturnType : List AncestorNode → Option String
  | [] => none
  | .funcLike retAnn :: _ =>
    match retAnn with
    | some t => some (unwrapPromise t)
    | none => none
  | _ :: rest => getFunctionReturnType rest

/-- Context of a call-form query site: the call's generic type arguments and
the upward ancestor path starting at the parent node. -/
structure CallCtx : Type where
  typeArgs : List String
  ancestors : List AncestorNode

/-- `QueryParser.inferReturnType` (call form): explicit generic type
argument first; else the type annotation when the direct parent is a
variable declaration; else the enclosing function's return type. -/
def inferReturnType (ctx : CallCtx) : Option String :=
  match ctx.typeArgs with
  | t :: _ => some t
  | [] =>
    match ctx.ancestors with
    | .varDecl (some t) :: _ => some t
    | _ => getFunctionReturnType ctx.ancestors

/-- `node.getFirstAncestorByKind(SyntaxKind.VariableDeclaration)` followed
by reading its type annotation: the nearest variable-declaration ancestor's
annotation, or nothing (no further search when the nearest one is
unannotated). -/
def findNearestVarDeclAnn : List AncestorNode → Option String
  | [] => none
  | .varDecl ann :: _ => ann
  | _ :: rest => findNearestVarDeclAnn rest

/-- `QueryParser.inferTemplateReturnType`: the wrapping call's generic type
argument when the direct parent is a call expression carrying one; else the
nearest enclosing variable declaration's annotation. -/
def inferTemplateReturnType (ancestors : List AncestorNode) : Option String :=
  match ancestors with
  | .callNode (t :: _) :: _ => some t
  | _ => findNearestVarDeclAnn ancestors

/-- `QueryParser.extractTemplateQueryInfo`, after intent/parameter
reconstruction: an empty parameter map becomes `undefined` (never an empty
object), and the id hashes the intent with those possibly-absent parameters
and the source location. The TypeScript `null` return is unreachable for
the two template-literal kinds, so the embedding is total. -/
def extractTemplateQueryInfo (digest : String → String) (node : TemplateNode)
    (ancestors : List AncestorNode) (loc : Location) : CollectedQuery :=
  let ip := extractTemplateIntentParams node
  let params := if ip.2.length > 0 then some ip.2 else none
  { id := generateQueryId digest ip.1 params (some loc)
    intent := ip.1
    params := params
    returnType := inferTemplateReturnType ancestors
    location := loc }

/-- First applicable rule of a fallback chain (claim side). -/
def firstSome (rules : List (Option String)) : Option String :=
  rules.findSome? id

/-- Claim-side rule (1), call form: the call's explicit generic type
argument. -/
def ruleGenericArg (ctx : CallCtx) : Option String :=
  ctx.typeArgs.head?

/-- Claim-side rule (2): the type annotation on the variable declaration
that the query expression directly initializes. -/
def ruleEnclosingVarDecl (ancestors : List AncestorNode) : Option String :=
  match ancestors.head? with
  | some (.varDecl ann) => ann
  | _ => none

/-- Whether an ancestor is one of the four function-like kinds. -/
def isFuncLike : AncestorNode → Bool
  | .funcLike _ => true
  | _ => false

/-- Claim-side rule (3), call form only: the return-type annotation of the
nearest enclosing function-like ancestor, with a single level of
`Promise<T>` unwrapped to `T`. -/
def ruleNearestFunc (ancestors : List AncestorNode) : Option String :=
  match ancestors.find? isFuncLike with
  | some (.funcLike (some t)) => some (unwrapPromise t)
  | _ => none

/-- Claim-side rule (1), template form: the explicit generic type argument
on the call wrapping the template. -/
def ruleTemplateGeneric (ancestors : List AncestorNode) : Option String :=
  match ancestors.head? with
  | some (.callNode targs) => targs.head?
  | _ => none

/-- Whether an ancestor is a variable declaration. -/
def isVarDeclNode : AncestorNode → Bool
  | .varDecl _ => true
  | _ => false

/-- Claim-side rule (2), template form: the annotation of the nearest
enclosing variable declaration. -/
def ruleNearestVarDecl (ancestors : List AncestorNode) : Option String :=
  match ancestors.find? isVarDeclNode with
  | some (.varDecl ann) => ann
  | _ => none

/-- C2: `generateRuntimeQueryId p` equals `generateQueryId p undefined
undefined` — both serialize `{intent: p, params: undefined, location:
undefined}`, and `JSON.stringify` omits the `undefined`-valued keys, so the
digested content strings coincide. Moreover `generateQueryId` is a pure,
total, deterministic function of its three arguments: it is a total Lean
function of the well-typed inputs (nothing in the serialization or digest
can throw or consult external state), and it maps equal inputs to equal
ids. The statement holds for every digest function, so it uses no property
of MD5 beyond its being a function. -/
theorem C2_runtime_id_agreement (digest : String → String) :
    (∀ p : String, generateRuntimeQueryId digest p = generateQueryId digest p none none)
    ∧ (∀ (i i' : String) (ps ps' : Option (List (String × JSValue)))
        (l l' : Option Location), i = i' → ps = ps' → l = l' →
        generateQueryId digest i ps l = generateQueryId digest i' ps' l') := by
  constructor
  · intro p
    rfl
  · intro i i' ps ps' l l' hi hp hl
    rw [hi, hp, hl]

/-- Witness for C2 at a concrete intent pattern and concrete repeated
inputs, with a concrete digest function. -/
theorem C2_runtime_id_agreement_witness :
    generateRuntimeQueryId (fun s => toString s.length) "Get user with id $\x7b0\x7d" =
      generateQueryId (fun s => toString s.length) "Get user with id $\x7b0\x7d" none none
    ∧ generateQueryId (fun s => toString s.length) "Get users"
        (some [("param0", JSValue.str "userId")]) (some ⟨"a.ts", 3, 5⟩) =
      generateQueryId (fun s => toString s.length) "Get users"
        (some [("param0", JSValue.str "userId")]) (some ⟨"a.ts", 3, 5⟩) :=
  ⟨(C2_runtime_id_agreement (fun s => toString s.length)).1 "Get user with id $\x7b0\x7d",
   (C2_runtime_id_agreement (fun s => toString s.length)).2 "Get users" "Get users"
     (some [("param0", JSValue.str "userId")]) (some [("param0", JSValue.str "userId")])
     (some ⟨"a.ts", 3, 5⟩) (some ⟨"a.ts", 3, 5⟩) rfl rfl rfl⟩

/-- Each collected query satisfies exactly one of the three categorization
predicates (new / valid / changed). -/
lemma categorize_pred_exactly_one (digest : String → String)
    (existing : String → Option GeneratedQuery) (q : CollectedQuery) :
    (isNewQuery existing q).toNat + (isValidQuery digest existing q).toNat
      + (isChangedQuery digest existing q).toNat = 1 := by
  unfold isNewQuery isValidQuery isChangedQuery
  cases hx : existing q.id with
  | none => simp
  | some ex =>
    cases hb : intentRecorded ex.intent with
    | false =>
      by_cases hq : generateQueryHash digest q = ex.hash <;> simp [hb, hq]
    | true =>
      by_cases hq : q.intent.trim = (ex.intent.getD "").trim <;> simp [hb, hq]

/-- `categorizeQueries` computes exactly the three filters by the claim-side
predicates, in input order. -/
lemma categorize_eq_filters (digest : String → String)
    (existing : String → Option GeneratedQuery) (cur : List CollectedQuery) :
    categorizeQueries digest existing cur =
      ⟨cur.filter (isValidQuery digest existing), cur.filter (isNewQuery existing),
       cur.filter (isChangedQuery digest existing)⟩ := by
  induction cur with
  | nil => rfl
  | cons q rest ih =>
    simp only [categorizeQueries, ih]
    cases hx : existing q.id with
    | none =>
      simp [List.filter_cons, isNewQuery, isValidQuery, isChangedQuery, hx]
    | some ex =>
      cases hb : intentRecorded ex.intent with
      | false =>
        by_cases hq : generateQueryHash digest q = ex.hash <;>
          simp [List.filter_cons, isNewQuery, isValidQuery, isChangedQuery, hx, hb, hq]
      | true =>
        by_cases hq : q.intent.trim = (ex.intent.getD "").trim <;>
          simp [List.filter_cons, isNewQuery, isValidQuery, isChangedQuery, hx, hb, hq]

/-- Concatenating the filters of three mutually exclusive, jointly exhaustive
boolean predicates permutes the original list. -/
lemma filter_triple_perm {α : Type} (p₁ p₂ p₃ : α → Bool)
    (h : ∀ a, (p₁ a).toNat + (p₂ a).toNat + (p₃ a).toNat = 1) (xs : List α) :
    (xs.filter p₁ ++ (xs.filter p₂ ++ xs.filter p₃)).Perm xs := by
  induction xs with
  | nil => simp
  | cons a xs ih =>
    have ha := h a
    cases h1 : p₁ a <;> cases h2 : p₂ a <;> cases h3 : p₃ a <;>
      simp only [h1, h2, h3, Bool.toNat_true, Bool.toNat_false] at ha <;>
      try omega
    · rw [List.filter_cons_of_neg (by simp [h1]), List.filter_cons_of_neg (by simp [h2]),
        List.filter_cons_of_pos h3]
      exact ((List.Perm.append_left _ List.perm_middle).trans List.perm_middle).trans (ih.cons a)
    · rw [List.filter_cons_of_neg (by simp [h1]), List.filter_cons_of_pos h2,
        List.filter_cons_of_neg (by simp [h3]), List.cons_append]
      exact List.perm_middle.trans (ih.cons a)
    · rw [List.filter_cons_of_pos h1, List.filter_cons_of_neg (by simp [h2]),
        List.filter_cons_of_neg (by simp [h3]), List.cons_append]
      exact ih.cons a

/-- C1: `categorizeQueries` places every current query in exactly one of the
three partitions — `invalid` when no existing entry under its id exists;
when an entry with non-empty intent exists, `valid` exactly when the trimmed
intents agree and `changed` otherwise; when the entry's intent is absent or
empty, `valid` exactly when the secondary content hash over
`(intent.trim, params or empty, returnType)` equals the stored hash and
`changed` otherwise. The three outputs are the filters of three mutually
exclusive, jointly exhaustive predicates, and their concatenation is a
permutation of the current queries: disjoint partitions that together
contain every current query exactly once. -/
theorem C1_categorizeQueries_partition (digest : String → String)
    (existing : String → Option GeneratedQuery) (cur : List CollectedQuery) :
    categorizeQueries digest existing cur =
      ⟨cur.filter (isValidQuery digest existing), cur.filter (isNewQuery existing),
       cur.filter (isChangedQuery digest existing)⟩
    ∧ (∀ q, (isNewQuery existing q).toNat + (isValidQuery digest existing q).toNat
        + (isChangedQuery digest existing q).toNat = 1)
    ∧ (cur.filter (isNewQuery existing) ++ (cur.filter (isValidQuery digest existing)
        ++ cur.filter (isChangedQuery digest existing))).Perm cur := by
  refine ⟨categorize_eq_filters digest existing cur,
    fun q => categorize_pred_exactly_one digest existing q, ?_⟩
  exact filter_triple_perm _ _ _ (fun q => categorize_pred_exactly_one digest existing q) cur

/-- C4: with caching enabled, after `set` writes an entry at time `t`, a
`get` with the same key components at any `now` with `now - t ≤ 24` hours
returns the stored query; with `now - t > 24` hours, `get` returns `null`
and `has` returns `false`, while the entry's file is still present on disk
(lazy expiration: reads never delete). -/
theorem C4_cache_roundtrip_and_expiration (digest : String → String)
    (st : CacheState) (t now : Nat) (queryId intent : String)
    (query : GeneratedQuery) (params : Option (List (String × JSValue)))
    (henabled : st.enabled = true) :
    (now - t ≤ cacheMaxAge →
      cacheGet digest (cacheSet digest st t queryId intent query params) now
        queryId intent params = some query)
    ∧ (now - t > cacheMaxAge →
      cacheGet digest (cacheSet digest st t queryId intent query params) now
        queryId intent params = none
      ∧ cacheHas digest (cacheSet digest st t queryId intent query params) now
          queryId intent params = false
      ∧ lookupFile (cacheSet digest st t queryId intent query params).files
          (generateCacheKey digest queryId intent params) =
          some ⟨generateCacheKey digest queryId intent params, query, t⟩) := by
  have hset : cacheSet digest st t queryId intent query params =
      { st with files := (generateCacheKey digest queryId intent params,
          ⟨generateCacheKey digest queryId intent params, query, t⟩) :: st.files } := by
    simp [cacheSet, henabled]
  have hlook : lookupFile (cacheSet digest st t queryId intent query params).files
      (generateCacheKey digest queryId intent params) =
      some ⟨generateCacheKey digest queryId intent params, query, t⟩ := by
    simp [hset, lookupFile, List.find?]
  constructor
  · intro hfresh
    have hexp : isExpired now (⟨generateCacheKey digest queryId intent params, query, t⟩ :
        CacheEntry) = false := by
      simp [isExpired]
      omega
    simp [cacheGet, hset, henabled, lookupFile, List.find?, hexp]
  · intro hstale
    have hexp : isExpired now (⟨generateCacheKey digest queryId intent params, query, t⟩ :
        CacheEntry) = true := by
      simp [isExpired]
      omega
    refine ⟨?_, ?_, hlook⟩
    · simp [cacheGet, hset, henabled, lookupFile, List.find?, hexp]
    · simp [cacheHas, hset, henabled, lookupFile, List.find?, hexp]

/-- Witness for C4 at concrete inputs: an empty enabled cache, a write at
time 0, a fresh read at `cacheMaxAge` and a stale read at `cacheMaxAge + 1`. -/
theorem C4_cache_roundtrip_and_expiration_witness :
    cacheGet (fun s => s) (cacheSet (fun s => s) ⟨true, []⟩ 0 "q1" "Get users"
      ⟨"q1", some "Get users", "SELECT 1", [], some "User", "h"⟩ none) cacheMaxAge
      "q1" "Get users" none =
      some ⟨"q1", some "Get users", "SELECT 1", [], some "User", "h"⟩
    ∧ cacheGet (fun s => s) (cacheSet (fun s => s) ⟨true, []⟩ 0 "q1" "Get users"
        ⟨"q1", some "Get users", "SELECT 1", [], some "User", "h"⟩ none) (cacheMaxAge + 1)
        "q1" "Get users" none = none
    ∧ cacheHas (fun s => s) (cacheSet (fun s => s) ⟨true, []⟩ 0 "q1" "Get users"
        ⟨"q1", some "Get users", "SELECT 1", [], some "User", "h"⟩ none) (cacheMaxAge + 1)
        "q1" "Get users" none = false :=
  ⟨(C4_cache_roundtrip_and_expiration (fun s => s) ⟨true, []⟩ 0 cacheMaxAge "q1"
      "Get users" ⟨"q1", some "Get users", "SELECT 1", [], some "User", "h"⟩ none rfl).1
      (by omega),
   ((C4_cache_roundtrip_and_expiration (fun s => s) ⟨true, []⟩ 0 (cacheMaxAge + 1) "q1"
      "Get users" ⟨"q1", some "Get users", "SELECT 1", [], some "User", "h"⟩ none rfl).2
      (by omega)).1,
   (((C4_cache_roundtrip_and_expiration (fun s => s) ⟨true, []⟩ 0 (cacheMaxAge + 1) "q1"
      "Get users" ⟨"q1", some "Get users", "SELECT 1", [], some "User", "h"⟩ none rfl).2
      (by omega)).2).1⟩

/-- A chain step clears nullability exactly on `notNull` and otherwise
preserves it. -/
lemma applyChainCall_nullable (acc : ColAccum) (c : ChainCall) :
    (applyChainCall acc c).nullable = (acc.nullable && !(c.methodName = "notNull" : Bool)) := by
  by_cases h1 : c.methodName = "notNull"
  · simp [applyChainCall, h1]
  · by_cases h2 : isDefaultSetting c = true
    · simp [applyChainCall, h1, h2]
    · by_cases h3 : c.methodName = "unique"
      · simp [applyChainCall, h1, h2, h3]
      · by_cases h4 : c.methodName = "primaryKey"
        · simp [applyChainCall, h1, h2, h3, h4]
        · by_cases h5 : c.methodName = "references"
          · simp only [applyChainCall, if_neg h1, h2, if_false, if_neg h3, if_neg h4,
              if_pos h5, h1, decide_False, Bool.not_false, Bool.and_true, Bool.false_eq_true]
            split <;> rfl
          · simp [applyChainCall, h1, h2, h3, h4, h5]

/-- A chain step overwrites the default value exactly on a default-setting
modifier and otherwise preserves it. -/
lemma applyChainCall_defaultValue (acc : ColAccum) (c : ChainCall) :
    (applyChainCall acc c).defaultValue =
      (if isDefaultSetting c then some (defaultContribution c) else acc.defaultValue) := by
  by_cases h0 : c.methodName = "notNull"
  · have hd : isDefaultSetting c = false := by
      simp [isDefaultSetting, h0]
    simp [applyChainCall, h0, hd]
  · by_cases h1 : isDefaultSetting c = true
    · simp [applyChainCall, h0, h1]
    · by_cases h3 : c.methodName = "unique"
      · simp [applyChainCall, h0, h1, h3]
      · by_cases h4 : c.methodName = "primaryKey"
        · simp [applyChainCall, h0, h1, h3, h4]
        · by_cases h5 : c.methodName = "references"
          · simp only [applyChainCall, if_neg h0, h1, if_false, if_neg h3, if_neg h4,
              if_pos h5, Bool.false_eq_true]
            split <;> rfl
          · simp [applyChainCall, h0, h1, h3, h4, h5]

/-- Folding the chain: the final nullability is false exactly when a
`notNull` call occurs. -/
lemma foldl_chain_nullable (calls : List ChainCall) (acc : ColAccum) :
    (calls.foldl applyChainCall acc).nullable =
      (acc.nullable && !(calls.any (fun c => c.methodName = "notNull"))) := by
  induction calls generalizing acc with
  | nil => simp
  | cons c cs ih =>
    simp only [List.foldl_cons, List.any_cons, ih, applyChainCall_nullable,
      Bool.not_or, Bool.and_assoc]

/-- Folding the chain: the final default value is the contribution of the
last default-setting call, when one exists. -/
lemma foldl_chain_defaultValue (calls : List ChainCall) (acc : ColAccum) :
    (calls.foldl applyChainCall acc).defaultValue =
      (match (calls.filter isDefaultSetting).getLast? with
       | some c => some (defaultContribution c)
       | none => acc.defaultValue) := by
  induction calls using List.reverseRecOn with
  | nil => simp
  | append_singleton cs c ih =>
    rw [List.foldl_append, List.foldl_cons, List.foldl_nil, applyChainCall_defaultValue,
      List.filter_append]
    by_cases hc : isDefaultSetting c
    · simp [hc, List.getLast?_concat]
    · simp only [hc, if_neg, Bool.false_eq_true, if_false, List.filter_cons, List.filter_nil,
        List.append_nil, ih]

/-- C5: a parsed column is non-nullable exactly when its modifier chain
contains a `notNull` call; with no `notNull` in the chain the column stays
nullable (the default). -/
theorem C5_nullable_iff_notNull (name : String) (callExpr : Expr) :
    ((parseColumnDefinition name callExpr).nullable = false ↔
      ∃ c ∈ getAllChainedCalls callExpr, c.methodName = "notNull") := by
  simp only [parseColumnDefinition, foldl_chain_nullable, Bool.true_and, Bool.not_eq_eq_eq_not,
    Bool.not_false]
  simp [List.any_eq_true]

/-- Witness for C5: `uuid('id').primaryKey().notNull()` is non-nullable and
its chain contains `notNull`. -/
theorem C5_nullable_iff_notNull_witness :
    (parseColumnDefinition "id"
        (.call (.propAccess (.call (.propAccess (.call (.ident "uuid") [.strLit "id"])
          "primaryKey") []) "notNull") [])).nullable = false
    ∧ (parseColumnDefinition "createdAt"
        (.call (.propAccess (.call (.ident "timestamp") [.strLit "created_at"])
          "defaultNow") [])).nullable = true :=
  ⟨(C5_nullable_iff_notNull "id" _).mpr ⟨⟨"notNull", []⟩, by simp [getAllChainedCalls], rfl⟩,
   by
    have h := C5_nullable_iff_notNull "createdAt"
      (.call (.propAccess (.call (.ident "timestamp") [.strLit "created_at"]) "defaultNow") [])
    revert h
    simp [getAllChainedCalls]⟩

/-- C6: the chain-unwinding pass appends the outermost call last (inner to
outer source order), and the recorded default value is the contribution of
the last (outermost) default-setting modifier in the chain — later
modifiers override earlier ones. -/
theorem C6_last_default_wins :
    (∀ (obj : Expr) (m : String) (args : List Expr),
      getAllChainedCalls (.call (.propAccess obj m) args) =
        getAllChainedCalls obj ++ [⟨m, args⟩])
    ∧ (∀ (name : String) (callExpr : Expr),
      (parseColumnDefinition name callExpr).defaultValue =
        (match ((getAllChainedCalls callExpr).filter isDefaultSetting).getLast? with
         | some c => some (defaultContribution c)
         | none => none)) := by
  refine ⟨fun obj m args => rfl, fun name callExpr => ?_⟩
  simp only [parseColumnDefinition, foldl_chain_defaultValue]

/-- Witness for C6: unwinding `integer('n').notNull()` appends the outer
call last, and in `integer('n').default(1).default(2)` the second
(outermost) `default` wins. -/
theorem C6_last_default_wins_witness :
    getAllChainedCalls (.call (.propAccess (.call (.ident "integer") [.strLit "n"])
        "notNull") [.numLit 7]) =
      getAllChainedCalls (.call (.ident "integer") [.strLit "n"]) ++ [⟨"notNull", [.numLit 7]⟩]
    ∧ (parseColumnDefinition "n"
        (.call (.propAccess (.call (.propAccess (.call (.ident "integer") [.strLit "n"])
          "default") [.numLit 1]) "default") [.numLit 2])).defaultValue =
        some (.num 2) := by
  refine ⟨(C6_last_default_wins).1 (.call (.ident "integer") [.strLit "n"]) "notNull"
    [.numLit 7], ?_⟩
  rw [(C6_last_default_wins).2 "n"
    (.call (.propAccess (.call (.propAccess (.call (.ident "integer") [.strLit "n"])
      "default") [.numLit 1]) "default") [.numLit 2])]
  rfl

/-- C7 counterexample: for `col: text('')` the root type call's first
argument is a string literal (with value `""`), so the claim requires
`dbName = ""`; but the JavaScript fallback `dbColumnName || propertyName`
treats the empty string as falsy, and the code records `dbName = "col"`. -/
theorem C7_dbName_counterexample :
    (extractColumns [.propAssign "col" (.call (.ident "text") [.strLit ""])]).map
        (fun c => c.dbName) = [some "col"]
    ∧ (some "col" : Option String) ≠ some "" := by
  exact ⟨rfl, by decide⟩

/-- C7 as amended: for every parsed column, `dbName` is the literal value of
the root type call's first argument when that argument is a **non-empty**
string literal, and otherwise (no root call, no arguments, a non-string
first argument, or an empty string literal) it is the property name; and
whenever `dbName` differs from the property name, the DSL explicitly
supplied a distinct non-empty physical name string. -/
theorem C7_dbName_amended (name : String) (callee : Expr) (args : List Expr) :
    (extractColumnEntry (.propAssign name (.call callee args))).map (fun c => c.dbName) =
      some (some (match extractDbColumnName (.call callee args) with
        | some v => if v = "" then name else v
        | none => name))
    ∧ ((extractColumnEntry (.propAssign name (.call callee args))).map
          (fun c => c.dbName) ≠ some (some name) →
        ∃ v, extractDbColumnName (.call callee args) = some v ∧ v ≠ ""
          ∧ (extractColumnEntry (.propAssign name (.call callee args))).map
              (fun c => c.dbName) = some (some v)) := by
  constructor
  · rfl
  · intro hne
    match hdb : extractDbColumnName (.call callee args) with
    | none =>
      exfalso
      apply hne
      simp [extractColumnEntry, jsStringOr, hdb]
    | some v =>
      by_cases hv : v = ""
      · exfalso
        apply hne
        simp [extractColumnEntry, jsStringOr, hdb, hv]
      · exact ⟨v, rfl, hv, by simp [extractColumnEntry, jsStringOr, hdb, hv]⟩

/-- Witness for C7 (amended) at `createdAt: timestamp('created_at')`: the
column's `dbName` is the supplied physical name, which is non-empty and
distinct from the property name. -/
theorem C7_dbName_amended_witness :
    (extractColumnEntry (.propAssign "createdAt"
        (.call (.ident "timestamp") [.strLit "created_at"]))).map (fun c => c.dbName) =
      some (some "created_at")
    ∧ (∃ v, extractDbColumnName (.call (.ident "timestamp") [.strLit "created_at"]) = some v
        ∧ v ≠ ""
        ∧ (extractColumnEntry (.propAssign "createdAt"
            (.call (.ident "timestamp") [.strLit "created_at"]))).map
              (fun c => c.dbName) = some (some v)) :=
  ⟨(C7_dbName_amended "createdAt" (.ident "timestamp") [.strLit "created_at"]).1,
   (C7_dbName_amended "createdAt" (.ident "timestamp") [.strLit "created_at"]).2
     (by decide)⟩

/-- An unrecognized property (not an assignment whose initializer is a call
expression) produces no column. -/
lemma extractColumnEntry_none_of_unrecognized {p : SchemaProp}
    (h : isColumnProp p = false) : extractColumnEntry p = none := by
  cases p with
  | otherProp => rfl
  | propAssign name init =>
    cases init <;> first | rfl | simp [isColumnProp] at h

/-- C9: dropping (or inserting) a property whose initializer is not a
recognizable call chain anywhere in the column object literal leaves the
extracted columns unchanged — such properties are silently omitted, no
error is raised (the embedding is a total function), and every recognized
column is still returned in order. -/
theorem C9_unrecognized_columns_skipped (xs ys : List SchemaProp) (p : SchemaProp)
    (h : isColumnProp p = false) :
    extractColumns (xs ++ p :: ys) = extractColumns (xs ++ ys) := by
  have hp := extractColumnEntry_none_of_unrecognized h
  simp [extractColumns, List.filterMap_append, List.filterMap_cons, hp]

/-- Witness for C9: a string-literal-initialized property between two
recognized columns contributes nothing. -/
theorem C9_unrecognized_columns_skipped_witness :
    extractColumns ([SchemaProp.propAssign "id" (.call (.ident "uuid") [])] ++
        SchemaProp.propAssign "bad" (.strLit "x") ::
        [SchemaProp.propAssign "name" (.call (.ident "text") [])]) =
      extractColumns ([SchemaProp.propAssign "id" (.call (.ident "uuid") [])] ++
        [SchemaProp.propAssign "name" (.call (.ident "text") [])]) :=
  C9_unrecognized_columns_skipped
    [SchemaProp.propAssign "id" (.call (.ident "uuid") [])]
    [SchemaProp.propAssign "name" (.call (.ident "text") [])]
    (SchemaProp.propAssign "bad" (.strLit "x")) rfl

/-- C3: the claim holds for a single interpolation (the spec's example
`llm` tagged ``Get user with id ${userId}`` yields intent
`"Get user with id ${0}"` with `param0 = "userId"`), but fails for two or
more interpolations: a `TemplateMiddle` token's raw text ends in `$\x7b`,
and no stripping branch removes that trailing `$\x7b` (the 218/18 branch
removes only a lone `\x7b`, and under the build's TypeScript kind numbering
— `TemplateMiddle` = 17, `TemplateTail` = 18 — the middle token matches no
branch at all). For `llm` tagged ``a${x}b${y}c`` the code derives
`"a${0}b${${1}c"`, not the specified `"a${0}b${1}c"`; the repository's
checked-in generated artifact exhibits exactly this malformed pattern,
while the runtime template tag reconstructs the clean pattern. -/
theorem C3_template_middle_divergence :
    extractTemplateIntentParams (.templateExpr "`Get user with id $\x7b"
        [⟨"userId", "\x7d`", 18⟩]) =
      ("Get user with id $\x7b0\x7d", [("param0", JSValue.str "userId")])
    ∧ extractTemplateIntentParams (.templateExpr "`a$\x7b"
        [⟨"x", "\x7db$\x7b", 17⟩, ⟨"y", "\x7dc`", 18⟩]) =
      ("a$\x7b0\x7db$\x7b$\x7b1\x7dc",
        [("param0", JSValue.str "x"), ("param1", JSValue.str "y")])
    ∧ "a$\x7b0\x7db$\x7b$\x7b1\x7dc" ≠ "a$\x7b0\x7db$\x7b1\x7dc" :=
  ⟨rfl, rfl, by decide⟩

/-- Skipping a non-function-like ancestor leaves rule (3) unchanged. -/
lemma ruleNearestFunc_cons_skip (n : AncestorNode) (l : List AncestorNode)
    (h : isFuncLike n = false) : ruleNearestFunc (n :: l) = ruleNearestFunc l := by
  simp [ruleNearestFunc, List.find?_cons_of_neg, h]

/-- Skipping a non-variable-declaration ancestor leaves the nearest-variable
rule unchanged. -/
lemma ruleNearestVarDecl_cons_skip (n : AncestorNode) (l : List AncestorNode)
    (h : isVarDeclNode n = false) : ruleNearestVarDecl (n :: l) = ruleNearestVarDecl l := by
  simp [ruleNearestVarDecl, List.find?_cons_of_neg, h]

/-- A three-rule fallback chain is nested `orElse`. -/
lemma firstSome_three (a b c : Option String) :
    firstSome [a, b, c] = (a.orElse fun _ => b.orElse fun _ => c) := by
  cases a <;> cases b <;> cases c <;> rfl

/-- A two-rule fallback chain is `orElse`. -/
lemma firstSome_two (a b : Option String) :
    firstSome [a, b] = (a.orElse fun _ => b) := by
  cases a <;> cases b <;> rfl

/-- The code's walk to the nearest function-like ancestor computes exactly
claim-side rule (3). -/
lemma getFunctionReturnType_eq_rule (l : List AncestorNode) :
    getFunctionReturnType l = ruleNearestFunc l := by
  induction l with
  | nil => rfl
  | cons n rest ih =>
    cases n with
    | funcLike retAnn =>
      cases retAnn <;>
        simp [getFunctionReturnType, ruleNearestFunc, List.find?_cons_of_pos, isFuncLike]
    | varDecl ann =>
      rw [show getFunctionReturnType (AncestorNode.varDecl ann :: rest) =
        getFunctionReturnType rest from rfl, ih,
        ruleNearestFunc_cons_skip (AncestorNode.varDecl ann) rest rfl]
    | callNode targs =>
      rw [show getFunctionReturnType (AncestorNode.callNode targs :: rest) =
        getFunctionReturnType rest from rfl, ih,
        ruleNearestFunc_cons_skip (AncestorNode.callNode targs) rest rfl]
    | otherNode =>
      rw [show getFunctionReturnType (AncestorNode.otherNode :: rest) =
        getFunctionReturnType rest from rfl, ih,
        ruleNearestFunc_cons_skip AncestorNode.otherNode rest rfl]

/-- The code's nearest-variable-declaration lookup computes exactly the
claim-side nearest-variable rule. -/
lemma findNearestVarDeclAnn_eq_rule (l : List AncestorNode) :
    findNearestVarDeclAnn l = ruleNearestVarDecl l := by
  induction l with
  | nil => rfl
  | cons n rest ih =>
    cases n with
    | varDecl ann =>
      simp [findNearestVarDeclAnn, ruleNearestVarDecl, List.find?_cons_of_pos, isVarDeclNode]
    | funcLike retAnn =>
      rw [show findNearestVarDeclAnn (AncestorNode.funcLike retAnn :: rest) =
        findNearestVarDeclAnn rest from rfl, ih,
        ruleNearestVarDecl_cons_skip (AncestorNode.funcLike retAnn) rest rfl]
    | callNode targs =>
      rw [show findNearestVarDeclAnn (AncestorNode.callNode targs :: rest) =
        findNearestVarDeclAnn rest from rfl, ih,
        ruleNearestVarDecl_cons_skip (AncestorNode.callNode targs) rest rfl]
    | otherNode =>
      rw [show findNearestVarDeclAnn (AncestorNode.otherNode :: rest) =
        findNearestVarDeclAnn rest from rfl, ih,
        ruleNearestVarDecl_cons_skip AncestorNode.otherNode rest rfl]

/-- C8: the call-form return type is the first applicable rule of the
chain — explicit generic type argument, then the type annotation of the
directly enclosing variable declaration, then the nearest enclosing
function-like node's return-type annotation with a single `Promise` level
unwrapped — and the template form uses only the first two rules (with the
generic argument read off the wrapping call, and the variable declaration
found among all ancestors). `none` when no rule applies. -/
theorem C8_return_type_fallback_chain :
    (∀ ctx : CallCtx, inferReturnType ctx =
      firstSome [ruleGenericArg ctx, ruleEnclosingVarDecl ctx.ancestors,
        ruleNearestFunc ctx.ancestors])
    ∧ (∀ ancestors : List AncestorNode, inferTemplateReturnType ancestors =
      firstSome [ruleTemplateGeneric ancestors, ruleNearestVarDecl ancestors]) := by
  constructor
  · rintro ⟨targs, anc⟩
    rw [firstSome_three]
    cases targs with
    | cons t rest => rfl
    | nil =>
      show (match anc with
        | .varDecl (some t) :: _ => some t
        | _ => getFunctionReturnType anc) = _
      match anc with
      | [] => rfl
      | .varDecl (some t) :: r => rfl
      | .varDecl none :: r =>
        show getFunctionReturnType r = _
        rw [show (ruleGenericArg ⟨[], AncestorNode.varDecl none :: r⟩) = none from rfl]
        rw [show (ruleEnclosingVarDecl (AncestorNode.varDecl none :: r)) = none from rfl]
        rw [getFunctionReturnType_eq_rule r, ← ruleNearestFunc_cons_skip
          (AncestorNode.varDecl none) r rfl]
        rfl
      | .funcLike retAnn :: r =>
        show getFunctionReturnType (AncestorNode.funcLike retAnn :: r) = _
        rw [getFunctionReturnType_eq_rule]
        rfl
      | .callNode targs :: r =>
        show getFunctionReturnType (AncestorNode.callNode targs :: r) = _
        rw [getFunctionReturnType_eq_rule]
        rfl
      | .otherNode :: r =>
        show getFunctionReturnType (AncestorNode.otherNode :: r) = _
        rw [getFunctionReturnType_eq_rule]
        rfl
  · intro ancestors
    rw [firstSome_two]
    match ancestors with
    | [] => rfl
    | .callNode (t :: ts) :: r => rfl
    | .callNode [] :: r =>
      show findNearestVarDeclAnn (AncestorNode.callNode [] :: r) = _
      rw [findNearestVarDeclAnn_eq_rule]
      rfl
    | .varDecl ann :: r =>
      show findNearestVarDeclAnn (AncestorNode.varDecl ann :: r) = _
      rw [findNearestVarDeclAnn_eq_rule]
      cases ann <;> rfl
    | .funcLike retAnn :: r =>
      show findNearestVarDeclAnn (AncestorNode.funcLike retAnn :: r) = _
      rw [findNearestVarDeclAnn_eq_rule]
      rfl
    | .otherNode :: r =>
      show findNearestVarDeclAnn (AncestorNode.otherNode :: r) = _
      rw [findNearestVarDeclAnn_eq_rule]
      rfl

/-- C10: a tagged-template site from which no interpolation parameters are
extracted (in particular every no-substitution template) yields a
`CollectedQuery` whose `params` is `undefined` — never an empty object —
and whose id is the identity hash computed with `params` absent. -/
theorem C10_empty_params_absent (digest : String → String) (node : TemplateNode)
    (ancestors : List AncestorNode) (loc : Location)
    (h : (extractTemplateIntentParams node).2 = []) :
    (extractTemplateQueryInfo digest node ancestors loc).params = none
    ∧ (extractTemplateQueryInfo digest node ancestors loc).id =
        generateQueryId digest (extractTemplateIntentParams node).1 none (some loc) := by
  constructor <;> simp [extractTemplateQueryInfo, h]

/-- Witness for C10 at `llm` tagged ``Get all users``. -/
theorem C10_empty_params_absent_witness :
    (extractTemplateQueryInfo (fun s => toString s.length) (.noSub "Get all users") []
        ⟨"users.ts", 4, 10⟩).params = none
    ∧ (extractTemplateQueryInfo (fun s => toString s.length) (.noSub "Get all users") []
        ⟨"users.ts", 4, 10⟩).id =
      generateQueryId (fun s => toString s.length)
        (extractTemplateIntentParams (.noSub "Get all users")).1 none
        (some ⟨"users.ts", 4, 10⟩) :=
  C10_empty_params_absent (fun s => toString s.length) (.noSub "Get all users") []
    ⟨"users.ts", 4, 10⟩ rfl

end DrizzleLLM
